import Mathlib

/-!
Shallow embedding of `src/server.js` (YMIT job-marketplace backend).

The server keeps a single in-memory array `jobs` of job records and exposes
four routes over it:

* `POST /api/jobs`    – `createJobFromBody` then `jobs.push` (`postJob` below);
* `GET /api/jobs`     – returns the whole array, reading no query parameters
  (`listJobs` below);
* `PUT /api/jobs/:id` – finds the first record whose `id`/`jobId` matches the
  path id and runs the accept / reject / complete / generic-status branch on
  it (`putJob` / `updateJobRecord` below);
* `DELETE /api/jobs/:id` – removes the first matching record (`deleteJob`).

JavaScript `x || d` on a possibly-absent field is modelled by `jsOrS` /
`jsOrI` / `jsOrN` (absent, the empty string and `0` are falsy and fall through
to the default); `x || null` by `jsNullS` / `jsNullN`; the truthiness test
`if (x)` on an optional string by `strTruthy`.  Timestamps (`Date.now()`,
`toLocaleString()`) and the random id suffix are passed in as parameters.
The lookup in the server also compares `j._id === pathId`; records built by
`createJobFromBody` carry no `_id` field, so that disjunct is always false
and is omitted from `jobMatches`.
-/

/-- Coordinates object `{lat, lng}` as built for `locationCoords`. -/
structure Coords where
  lat : Int
  lng : Int
deriving Repr, DecidableEq

/-- Location object `{address, lat, lng}` as built for `location`. -/
structure Location where
  address : String
  lat : Int
  lng : Int
deriving Repr, DecidableEq

/-- A job record exactly as normalised by `createJobFromBody` in server.js. -/
structure Job where
  id : String
  jobId : String
  title : String
  serviceType : String
  serviceName : String
  customerName : String
  contact : String
  description : String
  amount : String
  location : Location
  locationCoords : Coords
  status : String
  assignedTo : Option String
  createdAt : Nat
  timestamp : String
  workerId : Option String
  completionPhotoURL : Option String
  earnings : Int
  timeSpent : Int
  acceptedAt : Option Nat
  completedAt : Option Nat
deriving Repr, DecidableEq

/-- JavaScript `s || d` for an optional string: `undefined` and `""` are falsy. -/
def jsOrS : Option String → String → String
  | some s, d => if s = "" then d else s
  | none, d => d

/-- JavaScript `n || d` for an optional number: `undefined` and `0` are falsy. -/
def jsOrI : Option Int → Int → Int
  | some n, d => if n = 0 then d else n
  | none, d => d

/-- JavaScript `n || d` for an optional timestamp number. -/
def jsOrN : Option Nat → Nat → Nat
  | some n, d => if n = 0 then d else n
  | none, d => d

/-- JavaScript `s || null` for an optional string field. -/
def jsNullS : Option String → Option String
  | some s => if s = "" then none else some s
  | none => none

/-- JavaScript `n || null` for an optional timestamp field. -/
def jsNullN : Option Nat → Option Nat
  | some n => if n = 0 then none else some n
  | none => none

/-- JavaScript truthiness of an optional string (`if (x)` / `!x`). -/
def strTruthy : Option String → Bool
  | some s => s != ""
  | none => false

/-- The request body accepted by `POST /api/jobs` (all fields optional). -/
structure CreateBody where
  id : Option String := none
  serverId : Option String := none
  jobId : Option String := none
  title : Option String := none
  serviceType : Option String := none
  serviceName : Option String := none
  customerName : Option String := none
  contact : Option String := none
  description : Option String := none
  problemDetails : Option String := none
  amount : Option String := none
  location : Option Location := none
  locationCoords : Option Coords := none
  address : Option String := none
  lat : Option Int := none
  lng : Option Int := none
  status : Option String := none
  assignedTo : Option String := none
  createdAt : Option Nat := none
  timestamp : Option String := none
  workerId : Option String := none
  completionPhotoURL : Option String := none
  earnings : Option Int := none
  timeSpent : Option Int := none
  acceptedAt : Option Nat := none
  completedAt : Option Nat := none
deriving Repr, DecidableEq

/-- Model of `createJobFromBody(body)` from server.js.  `now` stands for `Date.now()`,
`rand` for the random suffix, `nowLocale` for `new Date(now).toLocaleString()`. -/
def createJobFromBody (body : CreateBody) (now : Nat) (rand : String)
    (nowLocale : String) : Job :=
  let incomingId :=
    jsOrS body.id (jsOrS body.serverId (jsOrS body.jobId
      ("JOB-" ++ toString now ++ "-" ++ rand)))
  { id := incomingId
    jobId := incomingId
    title := jsOrS body.title (jsOrS body.serviceName "Service Request")
    serviceType := jsOrS body.serviceType "electronics"
    serviceName := jsOrS body.serviceName "General Service"
    customerName := jsOrS body.customerName "Customer"
    contact := jsOrS body.contact ""
    description := jsOrS body.description (jsOrS body.problemDetails "")
    amount := jsOrS body.amount "₹500 - ₹1500"
    location := body.location.getD
      { address := jsOrS body.address "Unknown address"
        lat := jsOrI body.lat 0
        lng := jsOrI body.lng 0 }
    locationCoords := body.locationCoords.getD
      { lat := jsOrI body.lat 0, lng := jsOrI body.lng 0 }
    status := jsOrS body.status "available"
    assignedTo := jsNullS body.assignedTo
    createdAt := jsOrN body.createdAt now
    timestamp := jsOrS body.timestamp nowLocale
    workerId := jsNullS body.workerId
    completionPhotoURL := jsNullS body.completionPhotoURL
    earnings := jsOrI body.earnings 0
    timeSpent := jsOrI body.timeSpent 0
    acceptedAt := jsNullN body.acceptedAt
    completedAt := jsNullN body.completedAt }

/-- The fields the `PUT /api/jobs/:id` handler destructures from its body.
`earnings = some e` models `typeof earnings === "number"` holding with value
`e`; `none` models any non-number (absent) value, and similarly `timeSpent`. -/
structure UpdateBody where
  status : Option String := none
  workerId : Option String := none
  earnings : Option Int := none
  timeSpent : Option Int := none
  completionPhotoURL : Option String := none
deriving Repr, DecidableEq

/-- The distinct error responses of the job routes.  `notFound` is the 404
"Job not found"; `jobAlreadyTaken` is the 400 "Job already taken" Conflict on
accept; `workerIdRequired` is the 400 InvalidInput on accept; and
`onlyAssignedWorker` is the 400 "Only assigned worker can complete this job"
Forbidden on complete. -/
inductive PutError where
  | notFound
  | jobAlreadyTaken
  | workerIdRequired
  | onlyAssignedWorker
deriving Repr, DecidableEq

/-- The status-transition chain of the `PUT /api/jobs/:id` handler applied to
the found record: accept, reject, complete, then the generic truthy-status
branch; a falsy status leaves the record untouched and still succeeds. -/
def updateJobRecord (job : Job) (body : UpdateBody) (now : Nat) :
    Except PutError Job :=
  if body.status = some "accepted" then
    if job.status ≠ "available" ∧ job.status ≠ "pending" then
      .error .jobAlreadyTaken
    else if strTruthy body.workerId = false then
      .error .workerIdRequired
    else
      .ok { job with
        status := "accepted"
        assignedTo := body.workerId
        workerId := body.workerId
        acceptedAt := some now }
  else if body.status = some "rejected" then
    .ok { job with status := "available", assignedTo := none, workerId := none }
  else if body.status = some "completed" then
    if strTruthy body.workerId = false ∨ job.assignedTo ≠ body.workerId then
      .error .onlyAssignedWorker
    else
      .ok { job with
        status := "completed"
        earnings := body.earnings.getD job.earnings
        timeSpent := body.timeSpent.getD job.timeSpent
        completionPhotoURL :=
          if strTruthy body.completionPhotoURL then body.completionPhotoURL
          else job.completionPhotoURL
        completedAt := some now }
  else
    match body.status with
    | some s => if s ≠ "" then .ok { job with status := s } else .ok job
    | none => .ok job

/-- The `findIndex` predicate of the update and delete routes
(`j.id === pathId || j.jobId === pathId`; the `_id` disjunct is always false
on records built by `createJobFromBody`). -/
def jobMatches (pathId : String) (j : Job) : Bool :=
  j.id == pathId || j.jobId == pathId

/-- Route `PUT /api/jobs/:id`: update the first matching record in place; on any
error the store is returned unchanged.  Returns the response
(`.ok` updated job, or the error) together with the resulting store. -/
def putJob : List Job → String → UpdateBody → Nat →
    Except PutError Job × List Job
  | [], _, _, _ => (.error .notFound, [])
  | j :: rest, pathId, body, now =>
    if jobMatches pathId j then
      match updateJobRecord j body now with
      | .ok j2 => (.ok j2, j2 :: rest)
      | .error e => (.error e, j :: rest)
    else
      let r := putJob rest pathId body now
      (r.1, j :: r.2)

/-- Route `DELETE /api/jobs/:id`: splice out the first matching record, 404 when
none matches. -/
def deleteJob : List Job → String → Except PutError (List Job)
  | [], _ => .error .notFound
  | j :: rest, pathId =>
    if jobMatches pathId j then .ok rest
    else
      match deleteJob rest pathId with
      | .ok rest2 => .ok (j :: rest2)
      | .error e => .error e

/-- The store after a delete request: unchanged when the delete 404s. -/
def delStore (jobs : List Job) (pathId : String) : List Job :=
  match deleteJob jobs pathId with
  | .ok rest => rest
  | .error _ => jobs

/-- Route `POST /api/jobs`: build the record and push it onto the store. -/
def postJob (jobs : List Job) (body : CreateBody) (now : Nat) (rand : String)
    (nowLocale : String) : List Job :=
  jobs ++ [createJobFromBody body now rand nowLocale]

/-- Route `GET /api/jobs`: the handler reads no query parameters and responds with
the whole store, so any `status` / `workerId` filter arguments are ignored. -/
def listJobs (jobs : List Job) (_statusFilter : Option String)
    (_workerIdFilter : Option String) : List Job :=
  jobs

/-- Earnings of a successful update response. -/
def earnOf : Except PutError Job → Option Int
  | .ok j => some j.earnings
  | .error _ => none

/-- Assignment field of a successful update response. -/
def asgOf : Except PutError Job → Option (Option String)
  | .ok j => some j.assignedTo
  | .error _ => none

/-- Whether an update response succeeded. -/
def isOk : Except PutError Job → Bool
  | .ok _ => true
  | .error _ => false

/-- The record after an update request: unchanged when the request errors. -/
def updOr (j : Job) (body : UpdateBody) (now : Nat) : Job :=
  match updateJobRecord j body now with
  | .ok j2 => j2
  | .error _ => j

/-- Per-job form of the spec's assignment invariant: `accepted`/`completed`
records carry a worker, `available` records carry none.  (`assignedTo` is a
single nullable field, so "at most one assigned worker" is structural.) -/
def jobInv (j : Job) : Prop :=
  ((j.status = "accepted" ∨ j.status = "completed") → j.assignedTo ≠ none) ∧
  (j.status = "available" → j.assignedTo = none)

/-- The assignment invariant over the whole store. -/
def storeInv (jobs : List Job) : Prop :=
  ∀ j ∈ jobs, jobInv j

/-- States of the `jobs` store reachable through the server's routes:
the empty initial store, create, update (accept / reject / complete /
generic status), and delete, with arbitrary request bodies. -/
inductive JReachable : List Job → Prop where
  | init : JReachable []
  | create (s : List Job) (body : CreateBody) (now : Nat) (rand nowLocale : String) :
      JReachable s → JReachable (postJob s body now rand nowLocale)
  | update (s : List Job) (pathId : String) (body : UpdateBody) (now : Nat) :
      JReachable s → JReachable (putJob s pathId body now).2
  | del (s : List Job) (pathId : String) :
      JReachable s → JReachable (delStore s pathId)

/-- Reachability restricted to requests that keep the assignment invariant:
creation bodies carry no caller-supplied `status` or `assignedTo`, and the
update route is never asked for the raw status value `"available"` (which
the generic branch would set without clearing the assignment). -/
inductive SafeReachable : List Job → Prop where
  | init : SafeReachable []
  | create (s : List Job) (body : CreateBody) (now : Nat) (rand nowLocale : String) :
      body.status = none → body.assignedTo = none →
      SafeReachable s → SafeReachable (postJob s body now rand nowLocale)
  | update (s : List Job) (pathId : String) (body : UpdateBody) (now : Nat) :
      body.status ≠ some "available" →
      SafeReachable s → SafeReachable (putJob s pathId body now).2
  | del (s : List Job) (pathId : String) :
      SafeReachable s → SafeReachable (delStore s pathId)

/-! ### Shared lemmas about the route functions -/

/-- The update route acts on the first matching record: everything before and
after it is preserved, and an error leaves the store unchanged. -/
theorem putJob_first_match (pre : List Job) (j : Job) (post : List Job)
    (pathId : String) (body : UpdateBody) (now : Nat)
    (hpre : ∀ p ∈ pre, jobMatches pathId p = false)
    (hj : jobMatches pathId j = true) :
    putJob (pre ++ j :: post) pathId body now =
      (match updateJobRecord j body now with
       | .ok j2 => (.ok j2, pre ++ j2 :: post)
       | .error e => (.error e, pre ++ j :: post)) := by
  induction pre with
  | nil => simp [putJob, hj]
  | cons p rest ih =>
    have hp : jobMatches pathId p = false := hpre p (by simp)
    have hrest : ∀ q ∈ rest, jobMatches pathId q = false := by
      intro q hq; exact hpre q (by simp [hq])
    simp only [List.cons_append, putJob, hp, Bool.false_eq_true, if_false,
      List.append_eq, ih hrest]
    cases updateJobRecord j body now <;> simp

/-- The delete route removes exactly the first matching record. -/
theorem deleteJob_first_match (pre : List Job) (j : Job) (post : List Job)
    (pathId : String)
    (hpre : ∀ p ∈ pre, jobMatches pathId p = false)
    (hj : jobMatches pathId j = true) :
    deleteJob (pre ++ j :: post) pathId = .ok (pre ++ post) := by
  induction pre with
  | nil => simp [deleteJob, hj]
  | cons p rest ih =>
    have hp : jobMatches pathId p = false := hpre p (by simp)
    have hrest : ∀ q ∈ rest, jobMatches pathId q = false := by
      intro q hq; exact hpre q (by simp [hq])
    simp [deleteJob, hp, ih hrest]

/-- A store in which no record matches is left unchanged by delete, with a
404 response. -/
theorem deleteJob_no_match (jobs : List Job) (pathId : String)
    (h : ∀ p ∈ jobs, jobMatches pathId p = false) :
    deleteJob jobs pathId = .error .notFound := by
  induction jobs with
  | nil => rfl
  | cons p rest ih =>
    have hp : jobMatches pathId p = false := h p (by simp)
    have hrest : ∀ q ∈ rest, jobMatches pathId q = false := by
      intro q hq; exact h q (by simp [hq])
    simp [deleteJob, hp, ih hrest]

/-- A successful update preserves the per-job assignment invariant as long
as the requested status is not the raw string `"available"` (the accept
branch installs a truthy worker, reject clears the assignment, complete
requires a matching truthy worker, and any other generic status is
unconstrained by the invariant). -/
theorem updateJobRecord_ok_inv (j : Job) (body : UpdateBody) (now : Nat)
    (j2 : Job) (hinv : jobInv j) (hb : body.status ≠ some "available")
    (h : updateJobRecord j body now = .ok j2) : jobInv j2 := by
  by_cases hacc : body.status = some "accepted"
  · rw [updateJobRecord, if_pos hacc] at h
    by_cases hst : j.status ≠ "available" ∧ j.status ≠ "pending"
    · rw [if_pos hst] at h; exact absurd h (by simp)
    · rw [if_neg hst] at h
      by_cases hw : strTruthy body.workerId = false
      · rw [if_pos hw] at h; exact absurd h (by simp)
      · rw [if_neg hw] at h
        injection h with h7
        subst h7
        have hT : strTruthy body.workerId = true := by
          cases hb2 : strTruthy body.workerId
          · exact absurd hb2 hw
          · rfl
        cases hwid : body.workerId with
        | none => rw [hwid] at hT; exact absurd hT (by simp [strTruthy])
        | some w =>
          refine ⟨fun _ => ?_, fun hav => ?_⟩
          · simp [hwid]
          · simp at hav
  · rw [updateJobRecord, if_neg hacc] at h
    by_cases hrej : body.status = some "rejected"
    · rw [if_pos hrej] at h
      injection h with h7
      subst h7
      refine ⟨fun hc => ?_, fun _ => rfl⟩
      rcases hc with hc | hc <;> simp at hc
    · rw [if_neg hrej] at h
      by_cases hcomp : body.status = some "completed"
      · rw [if_pos hcomp] at h
        by_cases hc6 : strTruthy body.workerId = false ∨ j.assignedTo ≠ body.workerId
        · rw [if_pos hc6] at h; exact absurd h (by simp)
        · rw [if_neg hc6] at h
          injection h with h7
          subst h7
          have hT : strTruthy body.workerId = true := by
            cases hb2 : strTruthy body.workerId
            · exact absurd (Or.inl hb2) hc6
            · rfl
          have hA : j.assignedTo = body.workerId := by
            by_contra hne
            exact hc6 (Or.inr hne)
          cases hwid : body.workerId with
          | none => rw [hwid] at hT; exact absurd hT (by simp [strTruthy])
          | some w =>
            refine ⟨fun _ => ?_, fun hav => ?_⟩
            · simp [hA, hwid]
            · simp at hav
      · rw [if_neg hcomp] at h
        split at h
        next s hs =>
          by_cases hse : s = ""
          · rw [if_neg (by simp [hse])] at h
            injection h with h7; subst h7; exact hinv
          · rw [if_pos hse] at h
            injection h with h7
            subst h7
            refine ⟨fun hc => ?_, fun hc => ?_⟩
            · rcases hc with hc | hc
              · rw [show ({ j with status := s } : Job).status = s from rfl] at hc
                rw [hc] at hs; exact absurd hs hacc
              · rw [show ({ j with status := s } : Job).status = s from rfl] at hc
                rw [hc] at hs; exact absurd hs hcomp
            · rw [show ({ j with status := s } : Job).status = s from rfl] at hc
              rw [hc] at hs; exact absurd hs hb
        next hs =>
          injection h with h7; subst h7; exact hinv

/-- The update route preserves the store invariant when the requested status
is not the raw string `"available"`. -/
theorem putJob_inv (jobs : List Job) (pathId : String) (body : UpdateBody)
    (now : Nat) (hinv : storeInv jobs) (hb : body.status ≠ some "available") :
    storeInv (putJob jobs pathId body now).2 := by
  induction jobs with
  | nil => intro j hj; simp [putJob] at hj
  | cons p rest ih =>
    have hp : jobInv p := hinv p (by simp)
    have hrest : storeInv rest := fun q hq => hinv q (by simp [hq])
    by_cases hm : jobMatches pathId p
    · simp only [putJob, hm, if_true]
      cases hu : updateJobRecord p body now with
      | ok p2 =>
        intro q hq
        rcases List.mem_cons.mp hq with hq | hq
        · subst hq; exact updateJobRecord_ok_inv p body now q hp hb hu
        · exact hrest q hq
      | error e =>
        intro q hq
        rcases List.mem_cons.mp hq with hq | hq
        · subst hq; exact hp
        · exact hrest q hq
    · simp only [putJob, hm, Bool.false_eq_true, if_false]
      intro q hq
      rcases List.mem_cons.mp hq with hq | hq
      · subst hq; exact hp
      · exact ih hrest q hq

/-- Every record surviving a delete request was in the original store. -/
theorem delStore_subset (jobs : List Job) (pathId : String) :
    ∀ q ∈ delStore jobs pathId, q ∈ jobs := by
  induction jobs with
  | nil => intro q hq; simp [delStore, deleteJob] at hq
  | cons p rest ih =>
    intro q hq
    by_cases hm : jobMatches pathId p
    · simp only [delStore, deleteJob, hm, if_true] at hq
      exact List.mem_cons_of_mem p hq
    · simp only [delStore, deleteJob, hm, Bool.false_eq_true, if_false] at hq
      cases hd : deleteJob rest pathId with
      | ok rest2 =>
        rw [hd] at hq
        rcases List.mem_cons.mp hq with hq | hq
        · simp [hq]
        · have : q ∈ delStore rest pathId := by rw [delStore, hd]; exact hq
          exact List.mem_cons_of_mem p (ih q this)
      | error e =>
        rw [hd] at hq
        exact hq

/-- The assignment invariant holds in every safely reachable store. -/
theorem safeReachable_inv (s : List Job) (h : SafeReachable s) : storeInv s := by
  induction h with
  | init => intro j hj; simp at hj
  | create s body now rand nowLocale hst hasg _ ih =>
    intro j hj
    rcases List.mem_append.mp hj with hj | hj
    · exact ih j hj
    · have hj2 : j = createJobFromBody body now rand nowLocale := by
        simpa using hj
      subst hj2
      constructor
      · intro hc
        rcases hc with hc | hc <;>
          simp [createJobFromBody, hst, jsOrS] at hc
      · intro _
        simp [createJobFromBody, hasg, jsNullS]
  | update s pathId body now hb _ ih => exact putJob_inv s pathId body now ih hb
  | del s pathId _ ih =>
    intro q hq
    exact ih q (delStore_subset s pathId q hq)

/-! ### Concrete scenario used by witnesses and counterexamples -/

/-- A job created with caller-supplied id `"J1"` and all other defaults
(in particular `amount = "₹500 - ₹1500"`, `status = "available"`). -/
def cJob : Job := createJobFromBody { id := some "J1" } 10 "AAAA" "t0"

/-- Accept request body from worker `"W1"`. -/
def cAcceptBody : UpdateBody := { status := some "accepted", workerId := some "W1" }

/-- The job after worker `"W1"` accepted it. -/
def cAcceptedJob : Job := updOr cJob cAcceptBody 11

/-- The store after creating `cJob` and accepting it as `"W1"`. -/
def cAcceptedStore : List Job := (putJob [cJob] "J1" cAcceptBody 11).2

/-- Complete request body from worker `"W1"` with no explicit earnings. -/
def cCompleteBody : UpdateBody := { status := some "completed", workerId := some "W1" }

/-- The job after `"W1"` completed it (no explicit earnings supplied). -/
def cCompletedJob : Job := updOr cAcceptedJob cCompleteBody 12

/-- The store after create, accept and complete. -/
def cCompletedStore : List Job := (putJob cAcceptedStore "J1" cCompleteBody 12).2

/-! ### C1 -/

/-- C1: once a job's status is `accepted`, any further accept request on it
(whatever worker id the body carries, the first acceptor's or another's) is
answered with the Conflict error `jobAlreadyTaken`, and the store — hence the
job's assignment and every other field — is left exactly as it was. -/
theorem accept_is_exclusive (pathId : String) (body : UpdateBody) (now : Nat)
    (pre : List Job) (j : Job) (post : List Job) (s : List Job)
    (hs : s = pre ++ j :: post)
    (hpre : ∀ p ∈ pre, jobMatches pathId p = false)
    (hj : jobMatches pathId j = true)
    (hacc : j.status = "accepted")
    (hb : body.status = some "accepted") :
    putJob s pathId body now = (.error .jobAlreadyTaken, s) := by
  subst hs
  have hcond : j.status ≠ "available" ∧ j.status ≠ "pending" := by
    rw [hacc]; exact ⟨by decide, by decide⟩
  have hu : updateJobRecord j body now = .error .jobAlreadyTaken := by
    rw [updateJobRecord, if_pos hb, if_pos hcond]
  rw [putJob_first_match pre j post pathId body now hpre hj, hu]

/-- C1 witness: a second accept (by worker `"W2"`) on the job `"W1"` already
accepted is rejected with the Conflict error and the store is unchanged. -/
theorem accept_is_exclusive_witness :
    putJob [cAcceptedJob] "J1" { status := some "accepted", workerId := some "W2" } 13 =
      (.error .jobAlreadyTaken, [cAcceptedJob]) :=
  accept_is_exclusive "J1" { status := some "accepted", workerId := some "W2" } 13
    [] cAcceptedJob [] [cAcceptedJob] rfl (by simp) (by decide) (by decide) rfl

/-! ### C2 -/

/-- C2: a complete request whose worker id is missing, empty, or different
from the job's `assignedTo` (in particular whenever no worker is assigned)
is answered with the Forbidden error `onlyAssignedWorker`, and the store —
hence the job's status and every other field — is left exactly as it was. -/
theorem complete_wrong_worker_forbidden (pathId : String) (body : UpdateBody)
    (now : Nat) (pre : List Job) (j : Job) (post : List Job) (s : List Job)
    (hs : s = pre ++ j :: post)
    (hpre : ∀ p ∈ pre, jobMatches pathId p = false)
    (hj : jobMatches pathId j = true)
    (hb : body.status = some "completed")
    (hw : body.workerId = none ∨ body.workerId = some "" ∨
          j.assignedTo = none ∨ body.workerId ≠ j.assignedTo) :
    putJob s pathId body now = (.error .onlyAssignedWorker, s) := by
  subst hs
  have hcond : strTruthy body.workerId = false ∨ j.assignedTo ≠ body.workerId := by
    rcases hw with hw | hw | hw | hw
    · exact Or.inl (by rw [hw]; rfl)
    · exact Or.inl (by rw [hw]; rfl)
    · cases hwid : body.workerId with
      | none => exact Or.inl (by rfl)
      | some w => exact Or.inr (by rw [hw]; simp)
    · exact Or.inr (fun he => hw he.symm)
  have hu : updateJobRecord j body now = .error .onlyAssignedWorker := by
    rw [updateJobRecord, if_neg (by rw [hb]; decide), if_neg (by rw [hb]; decide),
      if_pos hb, if_pos hcond]
  rw [putJob_first_match pre j post pathId body now hpre hj, hu]

/-- C2 witness: worker `"W2"` attempting to complete the job assigned to
`"W1"` gets the Forbidden error and the store is unchanged. -/
theorem complete_wrong_worker_forbidden_witness :
    putJob [cAcceptedJob] "J1" { status := some "completed", workerId := some "W2" } 13 =
      (.error .onlyAssignedWorker, [cAcceptedJob]) :=
  complete_wrong_worker_forbidden "J1"
    { status := some "completed", workerId := some "W2" } 13
    [] cAcceptedJob [] [cAcceptedJob] rfl (by simp) (by decide) rfl
    (Or.inr (Or.inr (Or.inr (by decide))))

/-! ### C3 -/

/-- C3 counterexample: completing the default-amount job (`"₹500 - ₹1500"`)
with no explicit earnings leaves `earnings` at its creation default `0` — the
code never derives `500` from the amount string. -/
theorem complete_no_earnings_derivation :
    cJob.amount = "₹500 - ₹1500" ∧
    earnOf (putJob cAcceptedStore "J1" cCompleteBody 12).1 = some 0 ∧
    earnOf (putJob cAcceptedStore "J1" cCompleteBody 12).1 ≠ some 500 :=
  ⟨rfl, rfl, by decide⟩

/-- C3 amended: on a successful complete, an explicit numeric earnings value
from the body is stored; otherwise the job's `earnings` field is simply left
unchanged (no value is parsed out of the `amount` string and no `500`
fallback exists). -/
theorem complete_earnings_explicit_or_unchanged (j : Job) (body : UpdateBody)
    (now : Nat) (j2 : Job) (hb : body.status = some "completed")
    (h : updateJobRecord j body now = .ok j2) :
    j2.earnings = body.earnings.getD j.earnings := by
  rw [updateJobRecord, if_neg (by rw [hb]; decide), if_neg (by rw [hb]; decide),
    if_pos hb] at h
  by_cases hc : strTruthy body.workerId = false ∨ j.assignedTo ≠ body.workerId
  · rw [if_pos hc] at h; exact absurd h (by simp)
  · rw [if_neg hc] at h
    injection h with h7
    subst h7
    rfl

/-- C3 amended witness: the completed job of the concrete scenario carries
`earnings = body.earnings.getD previous` (here `0`, the creation default). -/
theorem complete_earnings_explicit_or_unchanged_witness :
    cCompletedJob.earnings = cCompleteBody.earnings.getD cAcceptedJob.earnings :=
  complete_earnings_explicit_or_unchanged cAcceptedJob cCompleteBody 12
    cCompletedJob rfl rfl

/-! ### C4 -/

/-- C4 counterexample: the job completed by `"W1"` can be completed again by
`"W1"` — the second complete request succeeds instead of failing. -/
theorem second_complete_succeeds :
    cCompletedJob.status = "completed" ∧
    cCompletedStore = [cCompletedJob] ∧
    isOk (putJob cCompletedStore "J1" cCompleteBody 13).1 = true :=
  ⟨rfl, rfl, rfl⟩

/-- C4 amended: on an already-completed job, a second complete request fails
(with the Forbidden error) exactly when its worker id is untruthy or differs
from the assigned worker; the assigned worker's repeated complete succeeds
again, re-applying the completion side effects. -/
theorem second_complete_only_by_assigned (j : Job) (body : UpdateBody)
    (now : Nat) (_hdone : j.status = "completed")
    (hb : body.status = some "completed") :
    ((strTruthy body.workerId = false ∨ j.assignedTo ≠ body.workerId) →
      updateJobRecord j body now = .error .onlyAssignedWorker) ∧
    ((strTruthy body.workerId = true ∧ j.assignedTo = body.workerId) →
      isOk (updateJobRecord j body now) = true) := by
  constructor
  · intro hc
    rw [updateJobRecord, if_neg (by rw [hb]; decide), if_neg (by rw [hb]; decide),
      if_pos hb, if_pos hc]
  · intro hc
    rw [updateJobRecord, if_neg (by rw [hb]; decide), if_neg (by rw [hb]; decide),
      if_pos hb, if_neg (by simp [hc.1, hc.2])]
    rfl

/-- C4 amended witness: on the completed job, worker `"W2"`'s complete fails
with the Forbidden error. -/
theorem second_complete_only_by_assigned_witness :
    updateJobRecord cCompletedJob
      { status := some "completed", workerId := some "W2" } 13 =
      .error .onlyAssignedWorker :=
  (second_complete_only_by_assigned cCompletedJob
    { status := some "completed", workerId := some "W2" } 13 rfl rfl).1
    (Or.inr (by decide))

/-! ### C9 -/

/-- C9: the complete branch never inspects the job's current status — for any
record it succeeds exactly when the body's worker id is truthy and equal to
`assignedTo`, in which case it overwrites `status`, `completedAt` and the
supplied completion fields; otherwise it fails with the Forbidden error. -/
theorem complete_ignores_status (j : Job) (body : UpdateBody) (now : Nat)
    (hb : body.status = some "completed") :
    (updateJobRecord j body now =
        .ok { j with
          status := "completed"
          earnings := body.earnings.getD j.earnings
          timeSpent := body.timeSpent.getD j.timeSpent
          completionPhotoURL :=
            if strTruthy body.completionPhotoURL then body.completionPhotoURL
            else j.completionPhotoURL
          completedAt := some now } ↔
      (strTruthy body.workerId = true ∧ j.assignedTo = body.workerId)) ∧
    ((strTruthy body.workerId = false ∨ j.assignedTo ≠ body.workerId) →
      updateJobRecord j body now = .error .onlyAssignedWorker) := by
  have hred : updateJobRecord j body now =
      if strTruthy body.workerId = false ∨ j.assignedTo ≠ body.workerId then
        .error .onlyAssignedWorker
      else
        .ok { j with
          status := "completed"
          earnings := body.earnings.getD j.earnings
          timeSpent := body.timeSpent.getD j.timeSpent
          completionPhotoURL :=
            if strTruthy body.completionPhotoURL then body.completionPhotoURL
            else j.completionPhotoURL
          completedAt := some now } := by
    rw [updateJobRecord, if_neg (by rw [hb]; decide), if_neg (by rw [hb]; decide),
      if_pos hb]
  constructor
  · by_cases hc : strTruthy body.workerId = false ∨ j.assignedTo ≠ body.workerId
    · rw [hred, if_pos hc]
      constructor
      · intro h; exact absurd h (by simp)
      · intro h
        exfalso
        rcases hc with hc | hc
        · rw [h.1] at hc; exact absurd hc (by decide)
        · exact hc h.2
    · rw [hred, if_neg hc]
      constructor
      · intro _
        constructor
        · cases hb2 : strTruthy body.workerId
          · exact absurd (Or.inl hb2) hc
          · rfl
        · by_contra hne; exact hc (Or.inr hne)
      · intro _; rfl
  · intro hc
    rw [hred, if_pos hc]

/-- C9 witness: the already-completed job is completed again by its assigned
worker `"W1"`, overwriting `completedAt` with the new time. -/
theorem complete_ignores_status_witness :
    updateJobRecord cCompletedJob cCompleteBody 13 =
      .ok { cCompletedJob with
        status := "completed"
        earnings := cCompleteBody.earnings.getD cCompletedJob.earnings
        timeSpent := cCompleteBody.timeSpent.getD cCompletedJob.timeSpent
        completionPhotoURL :=
          if strTruthy cCompleteBody.completionPhotoURL then
            cCompleteBody.completionPhotoURL
          else cCompletedJob.completionPhotoURL
        completedAt := some 13 } :=
  (complete_ignores_status cCompletedJob cCompleteBody 13 rfl).1.mpr
    ⟨rfl, rfl⟩

/-! ### C5 -/

/-- A creation body carrying a caller-supplied `accepted` status and no
assignment. -/
def badCreateBody : CreateBody := { status := some "accepted" }

/-- The store obtained by creating a job from `badCreateBody`. -/
def badStore : List Job := postJob [] badCreateBody 0 "AAAA" "t0"

/-- C5 counterexample: a single create request with body
`{status: "accepted"}` reaches a store whose job is `accepted` with a null
`assignedTo`, so the claimed invariant fails on a reachable state. -/
theorem invariant_fails_on_reachable_state :
    JReachable badStore ∧ ¬ storeInv badStore := by
  constructor
  · exact JReachable.create [] badCreateBody 0 "AAAA" "t0" JReachable.init
  · intro h
    have hmem : createJobFromBody badCreateBody 0 "AAAA" "t0" ∈ badStore := by
      simp [badStore, postJob]
    have hinv := h _ hmem
    exact hinv.1 (Or.inl (by decide)) (by decide)

/-- C5 amended: `assignedTo` being a single nullable field, each job has at
most one assigned worker; and the status/assignment correlation (`accepted`/
`completed` jobs carry a worker, `available` jobs carry none) holds in every
state reachable when creation bodies carry no caller-supplied `status` or
`assignedTo` and the update route is never asked for the raw status
`"available"`. -/
theorem assignment_invariant_safe_states (s : List Job) (h : SafeReachable s) :
    storeInv s :=
  safeReachable_inv s h

/-- C5 amended witness: the store holding one default-created job satisfies
the invariant. -/
theorem assignment_invariant_safe_states_witness :
    storeInv (postJob [] {} 5 "BBBB" "t1") :=
  assignment_invariant_safe_states _
    (SafeReachable.create [] {} 5 "BBBB" "t1" rfl rfl SafeReachable.init)

/-! ### C6 -/

/-- A creation body supplying an assignment on an otherwise-available job. -/
def availAssignedBody : CreateBody := { id := some "J2", assignedTo := some "W9" }

/-- An `available` job that nevertheless carries `assignedTo = "W9"`. -/
def availAssignedJob : Job := createJobFromBody availAssignedBody 20 "CCCC" "t2"

/-- The reject request body. -/
def rejBody : UpdateBody := { status := some "rejected" }

/-- C6 counterexample: rejecting an already-`available` job that carries a
caller-supplied assignment clears `assignedTo` — a field other than `status`
changes, so the reject is not a state-wise no-op on every available job. -/
theorem reject_available_changes_assignment :
    availAssignedJob.status = "available" ∧
    availAssignedJob.assignedTo = some "W9" ∧
    asgOf (updateJobRecord availAssignedJob rejBody 21) = some none :=
  ⟨rfl, rfl, rfl⟩

/-- C6 amended: a reject request unconditionally succeeds, setting `status`
to `available` and clearing both assignment fields (`assignedTo` and
`workerId`) while leaving every other field unchanged; on an available job
whose assignment fields are already null it changes nothing at all. -/
theorem reject_resets_job (j : Job) (body : UpdateBody) (now : Nat)
    (hb : body.status = some "rejected") :
    updateJobRecord j body now =
      .ok { j with status := "available", assignedTo := none, workerId := none } := by
  rw [updateJobRecord, if_neg (by rw [hb]; decide), if_pos hb]

/-- C6 amended witness: rejecting the accepted job of the concrete scenario
returns it to `available` with both assignment fields cleared. -/
theorem reject_resets_job_witness :
    updateJobRecord cAcceptedJob rejBody 14 =
      .ok { cAcceptedJob with
        status := "available", assignedTo := none, workerId := none } :=
  reject_resets_job cAcceptedJob rejBody 14 rfl

/-! ### C7 -/

/-- C7 counterexample: listing with a status filter `"available"` still
returns the whole store, which here consists of a job whose status is
`accepted` — the filter is not applied. -/
theorem list_filter_not_applied :
    listJobs cAcceptedStore (some "available") none = cAcceptedStore ∧
    cAcceptedStore = [cAcceptedJob] ∧
    cAcceptedJob.status = "accepted" :=
  ⟨rfl, rfl, rfl⟩

/-- C7 amended: the list route reads no query parameters — whatever status
or worker-id filter is supplied, it returns the full stored sequence in
insertion order. -/
theorem list_returns_all_jobs (jobs : List Job)
    (statusFilter workerIdFilter : Option String) :
    listJobs jobs statusFilter workerIdFilter = jobs :=
  rfl

/-! ### C8 -/

/-- A store containing exactly one record matching the path id yields, on
delete, exactly the store with the matching record filtered out. -/
theorem deleteJob_unique_match (jobs : List Job) (pathId : String)
    (h1 : jobs.countP (jobMatches pathId) = 1) :
    deleteJob jobs pathId = .ok (jobs.filter (fun j => !jobMatches pathId j)) := by
  induction jobs with
  | nil => simp at h1
  | cons p rest ih =>
    rw [List.countP_cons] at h1
    by_cases hm : jobMatches pathId p
    · rw [hm] at h1
      simp at h1
      have hfil : rest.filter (fun j => !jobMatches pathId j) = rest :=
        List.filter_eq_self.mpr (fun a ha => by simp [h1 a ha])
      simp [deleteJob, hm, List.filter_cons, hfil]
    · have hm' : jobMatches pathId p = false := by simpa using hm
      rw [hm'] at h1
      simp at h1
      have ih2 := ih h1
      simp [deleteJob, hm', ih2, List.filter_cons]

/-- C8: when exactly one record matches the identifier, delete removes that
record and reports success, every other record surviving in order; when no
record matches, delete fails with NotFound and the store is unchanged. -/
theorem delete_removes_exactly_match (jobs : List Job) (pathId : String) :
    (jobs.countP (jobMatches pathId) = 1 →
      deleteJob jobs pathId = .ok (jobs.filter (fun j => !jobMatches pathId j))) ∧
    (jobs.countP (jobMatches pathId) = 0 →
      deleteJob jobs pathId = .error .notFound ∧ delStore jobs pathId = jobs) := by
  constructor
  · exact deleteJob_unique_match jobs pathId
  · intro h0
    have hall := List.countP_eq_zero.mp h0
    have hall' : ∀ p ∈ jobs, jobMatches pathId p = false := fun p hp => by
      have := hall p hp; simpa using this
    refine ⟨deleteJob_no_match jobs pathId hall', ?_⟩
    rw [delStore, deleteJob_no_match jobs pathId hall']

/-- C8 witness: deleting `"J1"` from the one-job store removes it; deleting
an unknown id 404s and leaves the store as it was. -/
theorem delete_removes_exactly_match_witness :
    deleteJob [cJob] "J1" = .ok (([cJob] : List Job).filter (fun j => !jobMatches "J1" j)) ∧
    (deleteJob [cJob] "ZZZ" = .error .notFound ∧ delStore [cJob] "ZZZ" = [cJob]) :=
  ⟨(delete_removes_exactly_match [cJob] "J1").1 (by decide),
   (delete_removes_exactly_match [cJob] "ZZZ").2 (by decide)⟩

/-! ### C10 -/

/-- C10: creating a job whose caller-supplied id duplicates an existing
record appends a second, independent record (the original stays); and update
and delete requests addressed by that id operate on the earliest-inserted
matching record only, leaving the later duplicate untouched. -/
theorem duplicate_id_appends_and_first_match_wins
    (pre : List Job) (j1 : Job) (post : List Job) (pathId : String)
    (cbody : CreateBody) (ubody : UpdateBody) (now now2 : Nat)
    (rand nowLocale : String)
    (hpre : ∀ p ∈ pre, jobMatches pathId p = false)
    (hj : jobMatches pathId j1 = true)
    (_hdup : (createJobFromBody cbody now rand nowLocale).id = j1.id) :
    postJob (pre ++ j1 :: post) cbody now rand nowLocale =
      pre ++ j1 :: (post ++ [createJobFromBody cbody now rand nowLocale]) ∧
    (putJob (pre ++ j1 :: (post ++ [createJobFromBody cbody now rand nowLocale]))
        pathId ubody now2).2 =
      pre ++ updOr j1 ubody now2 ::
        (post ++ [createJobFromBody cbody now rand nowLocale]) ∧
    deleteJob (pre ++ j1 :: (post ++ [createJobFromBody cbody now rand nowLocale]))
        pathId =
      .ok (pre ++ (post ++ [createJobFromBody cbody now rand nowLocale])) := by
  refine ⟨by simp [postJob], ?_, deleteJob_first_match pre j1 _ pathId hpre hj⟩
  rw [putJob_first_match pre j1 _ pathId ubody now2 hpre hj]
  cases hu : updateJobRecord j1 ubody now2 <;> simp [updOr, hu]

/-- A creation body re-using the existing id `"J1"`. -/
def dupBody : CreateBody := { id := some "J1", title := some "Duplicate" }

/-- C10 witness: posting a duplicate of `"J1"` yields a two-record store with
both copies; accepting and deleting by `"J1"` then act on the first copy. -/
theorem duplicate_id_appends_witness :
    postJob [cJob] dupBody 30 "DDDD" "t3" =
      [cJob, createJobFromBody dupBody 30 "DDDD" "t3"] ∧
    (putJob [cJob, createJobFromBody dupBody 30 "DDDD" "t3"] "J1"
        cAcceptBody 31).2 =
      [updOr cJob cAcceptBody 31, createJobFromBody dupBody 30 "DDDD" "t3"] ∧
    deleteJob [cJob, createJobFromBody dupBody 30 "DDDD" "t3"] "J1" =
      .ok [createJobFromBody dupBody 30 "DDDD" "t3"] :=
  duplicate_id_appends_and_first_match_wins [] cJob [] "J1" dupBody cAcceptBody
    30 31 "DDDD" "t3" (by simp) (by decide) (by decide)
